import Mathlib

/-!
A shallow embedding of pkg/singularity/runtime/sync.go from singularity-cri:
the synchronization bridge that listens on a unix socket, decodes JSON status
messages from one accepted connection and forwards the corresponding container
states on an unbuffered channel.

The embedding is trace based: each iteration of a Go loop observes exactly one
event.  For the inner decode loop of syncOnConn the event is the branch its
select takes (context done) or the outcome of dec.More and dec.Decode; for the
accept loop of ObserveState it is the select branch or the outcome of
ln.Accept.  The functions below fold the Go control flow over such a trace and
record everything a consumer can observe: the states sent on the channel, in
order; whether the goroutine returned, which runs its defers and hence closes
the channel and releases the listener; and the boolean syncOnConn returned.
-/

namespace SCRI

/-- The State type of sync.go: the lifecycle phases of a container
(StateCreating, StateCreated, StateRunning, StateExited). -/
inductive State
  | StateCreating
  | StateCreated
  | StateRunning
  | StateExited
  deriving DecidableEq, Repr

/-- A JSON value, as far as the wire protocol needs one: what a single
successful dec.Decode step of encoding/json has read from the connection. -/
inductive Json
  | obj (fields : List (String × Json))
  | str (s : String)
  | num (n : Int)
  | jbool (b : Bool)
  | null
  | arr (elems : List Json)

/-- ASCII lower casing of a character, used for the case-insensitive key
matching of encoding/json. -/
def lowerChar (c : Char) : Char :=
  if 'A' ≤ c ∧ c ≤ 'Z' then Char.ofNat (c.toNat + 32) else c

/-- ASCII lower casing of an object key. -/
def lowerKey (k : String) : String :=
  String.mk (k.data.map lowerChar)

/-- encoding/json unmarshalling of the fields of one JSON object into the
statusInfo struct of sync.go, whose single field Status carries the tag
status.  Keys matching the tag (case-insensitively, as encoding/json does) set
the field when the value is a JSON string, leave it unchanged when the value
is null, and are a type error otherwise; keys that do not match are ignored.
A key that never occurs leaves the field at its previous value, because
Unmarshal does not touch struct fields absent from the object. -/
def decodeFields (cur : String) : List (String × Json) → Option String
  | [] => some cur
  | (k, v) :: rest =>
      if lowerKey k = "status" then
        match v with
        | Json.str s => decodeFields s rest
        | Json.null => decodeFields cur rest
        | _ => none
      else
        decodeFields cur rest

/-- One dec.Decode(&status) step of sync.go on a syntactically valid JSON
value: only an object unmarshals into the struct (null is a no-op); any other
JSON kind is an unmarshal type error. `cur` is the value held by the status
variable before the call, which Decode reuses across loop iterations. -/
def decodeStatus (cur : String) : Json → Option String
  | Json.obj fields => decodeFields cur fields
  | Json.null => some cur
  | _ => none

/-- What one iteration of the syncOnConn loop observes: its select takes the
ctx.Done branch; dec.More reports no complete message (as it does, at every
subsequent poll, once the peer has closed the connection); dec.Decode fails
with a syntax or input error; or dec.Decode reads one syntactically valid
JSON value. -/
inductive ConnEvent
  | ctxDone
  | noData
  | badSyntax
  | more (j : Json)

/-- Everything observable of one syncOnConn run over a finite trace:
the states it sent on syncChan in order; whether it returned, and with which
boolean (none means the trace ended with the loop still running, so the
function has not returned); and the final contents of its status variable. -/
structure ConnResult where
  emitted : List State
  ret : Option Bool
  statusVar : String
  deriving DecidableEq, Repr

/-- The syncOnConn loop of sync.go folded over a trace of its observations.
The first argument is the status variable, declared once outside the loop and
reused by every Decode call.  Mirrors the source: the ctx.Done branch returns
false; a Decode error returns true; the switch on status.Status sends the
mapped state for creating, created and running and keeps looping, sends
StateExited and returns true for stopped, and logs and keeps looping on any
other string. -/
def syncOnConn (status : String) : List ConnEvent → ConnResult
  | [] => ⟨[], none, status⟩
  | ConnEvent.ctxDone :: _ => ⟨[], some false, status⟩
  | ConnEvent.noData :: rest => syncOnConn status rest
  | ConnEvent.badSyntax :: _ => ⟨[], some true, status⟩
  | ConnEvent.more j :: rest =>
      match decodeStatus status j with
      | none => ⟨[], some true, status⟩
      | some s =>
          if s = "creating" then
            ⟨State.StateCreating :: (syncOnConn s rest).emitted,
              (syncOnConn s rest).ret, (syncOnConn s rest).statusVar⟩
          else if s = "created" then
            ⟨State.StateCreated :: (syncOnConn s rest).emitted,
              (syncOnConn s rest).ret, (syncOnConn s rest).statusVar⟩
          else if s = "running" then
            ⟨State.StateRunning :: (syncOnConn s rest).emitted,
              (syncOnConn s rest).ret, (syncOnConn s rest).statusVar⟩
          else if s = "stopped" then
            ⟨[State.StateExited], some true, s⟩
          else
            syncOnConn s rest

/-- What one iteration of the accept loop inside ObserveState observes: its
select takes the ctx.Done branch; ln.Accept fails; or ln.Accept yields a
connection whose decode loop then observes the given trace. -/
inductive AcceptEvent
  | ctxDone
  | acceptErr
  | acceptOk (events : List ConnEvent)

/-- Everything observable of the background goroutine of ObserveState over a
finite trace: the states sent on syncChan in order; whether the goroutine
returned, running its deferred close(syncChan) (closed) and ln.Close
(released); and how many connections were successfully accepted. -/
structure SessionResult where
  emitted : List State
  closed : Bool
  released : Bool
  accepts : Nat
  deriving DecidableEq, Repr

/-- The accept loop of the ObserveState goroutine folded over a trace.
Mirrors the source: the ctx.Done branch returns (both defers run); an Accept
error returns; on a successful Accept it runs syncOnConn to completion and
returns if that reported true, otherwise loops.  A connection trace on which
syncOnConn never returns (ret = none) leaves the goroutine inside syncOnConn
forever: nothing more is emitted and the defers never run. -/
def acceptLoop : List AcceptEvent → SessionResult
  | [] => ⟨[], false, false, 0⟩
  | AcceptEvent.ctxDone :: _ => ⟨[], true, true, 0⟩
  | AcceptEvent.acceptErr :: _ => ⟨[], true, true, 0⟩
  | AcceptEvent.acceptOk evs :: rest =>
      match syncOnConn "" evs with
      | ConnResult.mk out (some true) _ => ⟨out, true, true, 1⟩
      | ConnResult.mk out (some false) _ =>
          ⟨out ++ (acceptLoop rest).emitted, (acceptLoop rest).closed,
            (acceptLoop rest).released, 1 + (acceptLoop rest).accepts⟩
      | ConnResult.mk out none _ => ⟨out, false, false, 1⟩

/-- The result of ObserveState as the caller sees it: either a bind failure
(nil channel together with a non-nil error) or a live stream (non-nil channel,
nil error) whose one background goroutine then behaves as acceptLoop. -/
inductive ObserveResult
  | bindErr
  | stream (outcome : SessionResult)
  deriving DecidableEq, Repr

/-- ObserveState of sync.go: net.Listen failing makes it return (nil, error)
at once and start nothing; otherwise it returns the unbuffered channel and
launches the accept loop goroutine. -/
def ObserveState (bindOk : Bool) (events : List AcceptEvent) : ObserveResult :=
  if bindOk then ObserveResult.stream (acceptLoop events) else ObserveResult.bindErr

/-- The wire message with the given status value: the decode of the JSON
object carrying exactly the field status set to the string s. -/
def mkMsg (s : String) : ConnEvent :=
  ConnEvent.more (Json.obj [("status", Json.str s)])

/-- The wire-value-to-state mapping table of the spec, read off the switch in
syncOnConn: creating, created, running and stopped map to the four states,
anything else to nothing. -/
def stateOfWire : String → Option State
  | "creating" => some State.StateCreating
  | "created" => some State.StateCreated
  | "running" => some State.StateRunning
  | "stopped" => some State.StateExited
  | _ => none

/-- The closure causes enumerated by the spec: cancellation, accept failure,
decoder-signalled termination. -/
inductive Cause
  | cancelled
  | acceptFailed
  | decoderStopped
  deriving DecidableEq, Repr

/-- Modelled from the spec wording of the closure guarantee: the first of the
enumerated causes {cancellation, accept failure, decoder-signalled
termination} occurring on a trace, if any.  Used to compare the closure
behaviour of acceptLoop against the spec enumeration. -/
def specExitCause : List AcceptEvent → Option Cause
  | [] => none
  | AcceptEvent.ctxDone :: _ => some Cause.cancelled
  | AcceptEvent.acceptErr :: _ => some Cause.acceptFailed
  | AcceptEvent.acceptOk evs :: rest =>
      match (syncOnConn "" evs).ret with
      | some true => some Cause.decoderStopped
      | some false => specExitCause rest
      | none => none

/-- Realizability of an accept-loop trace with respect to context
cancellation being sticky: a Go context, once done, stays done, and a select
with a ready communication case does not take its default branch.  So when
syncOnConn returns false (which it does only on its ctx.Done branch), the
next accept-loop iteration necessarily observes ctx.Done as well. -/
def stickyCancel : List AcceptEvent → Bool
  | AcceptEvent.acceptOk evs :: rest =>
      match (syncOnConn "" evs).ret with
      | some false =>
          match rest with
          | AcceptEvent.ctxDone :: _ => true
          | _ => false
      | _ => true
  | _ => true

/-- On an exhausted trace the decode loop has emitted nothing further and has
not returned. -/
theorem syncOnConn_nilE (st : String) : syncOnConn st [] = ⟨[], none, st⟩ := rfl

/-- The ctx.Done branch of the decode loop returns false. -/
theorem syncOnConn_ctxDoneE (st : String) (rest : List ConnEvent) :
    syncOnConn st (ConnEvent.ctxDone :: rest) = ⟨[], some false, st⟩ := rfl

/-- A poll with no complete message available leaves the loop running. -/
theorem syncOnConn_noDataE (st : String) (rest : List ConnEvent) :
    syncOnConn st (ConnEvent.noData :: rest) = syncOnConn st rest := rfl

/-- A Decode syntax or input error returns true at once. -/
theorem syncOnConn_badSyntaxE (st : String) (rest : List ConnEvent) :
    syncOnConn st (ConnEvent.badSyntax :: rest) = ⟨[], some true, st⟩ := rfl

/-- Decoding the canonical one-field status object yields its status string,
whatever the variable held before. -/
theorem decodeStatus_statusField (st s : String) :
    decodeStatus st (Json.obj [("status", Json.str s)]) = some s := rfl

/-- The switch of syncOnConn on the status string of a canonical message. -/
theorem syncOnConn_msg (st s : String) (rest : List ConnEvent) :
    syncOnConn st (mkMsg s :: rest) =
      if s = "creating" then
        ⟨State.StateCreating :: (syncOnConn s rest).emitted,
          (syncOnConn s rest).ret, (syncOnConn s rest).statusVar⟩
      else if s = "created" then
        ⟨State.StateCreated :: (syncOnConn s rest).emitted,
          (syncOnConn s rest).ret, (syncOnConn s rest).statusVar⟩
      else if s = "running" then
        ⟨State.StateRunning :: (syncOnConn s rest).emitted,
          (syncOnConn s rest).ret, (syncOnConn s rest).statusVar⟩
      else if s = "stopped" then
        ⟨[State.StateExited], some true, s⟩
      else
        syncOnConn s rest := rfl

/-- A decoded value is handled through decodeStatus: failure ends the
connection, success is handled exactly like the canonical message carrying
the decoded status string. -/
theorem syncOnConn_more_eq (st : String) (j : Json) (rest : List ConnEvent) :
    syncOnConn st (ConnEvent.more j :: rest) =
      match decodeStatus st j with
      | none => ⟨[], some true, st⟩
      | some s => syncOnConn st (mkMsg s :: rest) := by
  cases h : decodeStatus st j
  case none =>
    simp only [syncOnConn]
    rw [h]
  case some s =>
    simp only [syncOnConn, mkMsg]
    rw [h, decodeStatus_statusField]

/-- An unmarshal type error makes syncOnConn return true without emitting. -/
theorem syncOnConn_more_fail (st : String) (j : Json) (rest : List ConnEvent)
    (h : decodeStatus st j = none) :
    syncOnConn st (ConnEvent.more j :: rest) = ⟨[], some true, st⟩ := by
  rw [syncOnConn_more_eq, h]

/-- A value that decodes to status s is processed exactly like the canonical
message carrying s. -/
theorem syncOnConn_more_canon (st : String) (j : Json) (s : String) (rest : List ConnEvent)
    (h : decodeStatus st j = some s) :
    syncOnConn st (ConnEvent.more j :: rest) = syncOnConn st (mkMsg s :: rest) := by
  rw [syncOnConn_more_eq, h]

/-- A status string outside the switch table is dropped: nothing is emitted,
nothing returns, and the loop continues with the status variable updated. -/
theorem syncOnConn_msg_unknown (st s : String) (rest : List ConnEvent)
    (h1 : s ≠ "creating") (h2 : s ≠ "created") (h3 : s ≠ "running") (h4 : s ≠ "stopped") :
    syncOnConn st (mkMsg s :: rest) = syncOnConn s rest := by
  rw [syncOnConn_msg, if_neg h1, if_neg h2, if_neg h3, if_neg h4]

/-- A creating message prepends StateCreating and continues. -/
theorem syncOnConn_creating (st : String) (rest : List ConnEvent) :
    syncOnConn st (mkMsg "creating" :: rest) =
      ⟨State.StateCreating :: (syncOnConn "creating" rest).emitted,
        (syncOnConn "creating" rest).ret, (syncOnConn "creating" rest).statusVar⟩ := rfl

/-- A created message prepends StateCreated and continues. -/
theorem syncOnConn_created (st : String) (rest : List ConnEvent) :
    syncOnConn st (mkMsg "created" :: rest) =
      ⟨State.StateCreated :: (syncOnConn "created" rest).emitted,
        (syncOnConn "created" rest).ret, (syncOnConn "created" rest).statusVar⟩ := rfl

/-- A running message prepends StateRunning and continues. -/
theorem syncOnConn_running (st : String) (rest : List ConnEvent) :
    syncOnConn st (mkMsg "running" :: rest) =
      ⟨State.StateRunning :: (syncOnConn "running" rest).emitted,
        (syncOnConn "running" rest).ret, (syncOnConn "running" rest).statusVar⟩ := rfl

/-- A stopped message emits exactly one StateExited and returns true; the
rest of the trace is never examined. -/
theorem syncOnConn_stopped (st : String) (rest : List ConnEvent) :
    syncOnConn st (mkMsg "stopped" :: rest) = ⟨[State.StateExited], some true, "stopped"⟩ := rfl

/-- Composition of the decode loop over concatenated traces: as long as the
first part has not made syncOnConn return, the run over the concatenation is
the run over the first part followed by the run over the second, started from
the status variable the first part left behind. -/
theorem syncOnConn_append (xs : List ConnEvent) : ∀ (st : String) (ys : List ConnEvent),
    (syncOnConn st xs).ret = none →
    syncOnConn st (xs ++ ys) =
      ⟨(syncOnConn st xs).emitted ++
          (syncOnConn (syncOnConn st xs).statusVar ys).emitted,
        (syncOnConn (syncOnConn st xs).statusVar ys).ret,
        (syncOnConn (syncOnConn st xs).statusVar ys).statusVar⟩ := by
  induction xs with
  | nil =>
    intro st ys _
    simp [syncOnConn_nilE]
  | cons e xs ih =>
    intro st ys h
    cases e with
    | ctxDone => rw [syncOnConn_ctxDoneE] at h; simp at h
    | badSyntax => rw [syncOnConn_badSyntaxE] at h; simp at h
    | noData =>
      rw [List.cons_append, syncOnConn_noDataE] at *
      exact ih st ys h
    | more j =>
      rw [List.cons_append]
      cases hd : decodeStatus st j with
      | none =>
        rw [syncOnConn_more_fail st j xs hd] at h
        simp at h
      | some s =>
        rw [syncOnConn_more_canon st j s xs hd] at h
        rw [syncOnConn_more_canon st j s (xs ++ ys) hd, syncOnConn_more_canon st j s xs hd]
        by_cases h1 : s = "creating"
        · subst h1
          rw [syncOnConn_creating] at h
          simp at h
          rw [syncOnConn_creating, syncOnConn_creating, ih "creating" ys h]
          simp
        · by_cases h2 : s = "created"
          · subst h2
            rw [syncOnConn_created] at h
            simp at h
            rw [syncOnConn_created, syncOnConn_created, ih "created" ys h]
            simp
          · by_cases h3 : s = "running"
            · subst h3
              rw [syncOnConn_running] at h
              simp at h
              rw [syncOnConn_running, syncOnConn_running, ih "running" ys h]
              simp
            · by_cases h4 : s = "stopped"
              · subst h4
                rw [syncOnConn_stopped] at h
                simp at h
              · rw [syncOnConn_msg_unknown st s xs h1 h2 h3 h4] at h
                rw [syncOnConn_msg_unknown st s (xs ++ ys) h1 h2 h3 h4,
                  syncOnConn_msg_unknown st s xs h1 h2 h3 h4]
                exact ih s ys h

/-- Unfolding of the accept loop on a successful accept. -/
theorem acceptLoop_acceptOk_eq (evs : List ConnEvent) (rest : List AcceptEvent) :
    acceptLoop (AcceptEvent.acceptOk evs :: rest) =
      match syncOnConn "" evs with
      | ConnResult.mk out (some true) _ => ⟨out, true, true, 1⟩
      | ConnResult.mk out (some false) _ =>
          ⟨out ++ (acceptLoop rest).emitted, (acceptLoop rest).closed,
            (acceptLoop rest).released, 1 + (acceptLoop rest).accepts⟩
      | ConnResult.mk out none _ => ⟨out, false, false, 1⟩ := rfl

/-- When the decoder reports true, the goroutine returns: channel closed,
listener released, exactly the one connection accepted. -/
theorem acceptLoop_connStop (evs : List ConnEvent) (rest : List AcceptEvent)
    (out : List State) (sv : String) (h : syncOnConn "" evs = ⟨out, some true, sv⟩) :
    acceptLoop (AcceptEvent.acceptOk evs :: rest) = ⟨out, true, true, 1⟩ := by
  rw [acceptLoop_acceptOk_eq, h]

/-- When the decoder reports false, the accept loop goes around again. -/
theorem acceptLoop_connCancel (evs : List ConnEvent) (rest : List AcceptEvent)
    (out : List State) (sv : String) (h : syncOnConn "" evs = ⟨out, some false, sv⟩) :
    acceptLoop (AcceptEvent.acceptOk evs :: rest) =
      ⟨out ++ (acceptLoop rest).emitted, (acceptLoop rest).closed,
        (acceptLoop rest).released, 1 + (acceptLoop rest).accepts⟩ := by
  rw [acceptLoop_acceptOk_eq, h]

/-- When the decoder never returns, the goroutine is stuck inside it: no
closure, no release, no further accept. -/
theorem acceptLoop_connHang (evs : List ConnEvent) (rest : List AcceptEvent)
    (out : List State) (sv : String) (h : syncOnConn "" evs = ⟨out, none, sv⟩) :
    acceptLoop (AcceptEvent.acceptOk evs :: rest) = ⟨out, false, false, 1⟩ := by
  rw [acceptLoop_acceptOk_eq, h]

/-- Unfolding of specExitCause on a successful accept. -/
theorem specExitCause_acceptOk_eq (evs : List ConnEvent) (rest : List AcceptEvent) :
    specExitCause (AcceptEvent.acceptOk evs :: rest) =
      match (syncOnConn "" evs).ret with
      | some true => some Cause.decoderStopped
      | some false => specExitCause rest
      | none => none := rfl

/-- Unfolding of stickyCancel on a successful accept. -/
theorem stickyCancel_acceptOk (evs : List ConnEvent) (rest : List AcceptEvent) :
    stickyCancel (AcceptEvent.acceptOk evs :: rest) =
      match (syncOnConn "" evs).ret with
      | some false =>
          match rest with
          | AcceptEvent.ctxDone :: _ => true
          | _ => false
      | _ => true := rfl

/-- The channel is closed exactly when one of the spec-enumerated causes
occurred, and the listener is released exactly when the channel is closed. -/
theorem acceptLoop_closed_iff (trace : List AcceptEvent) :
    ((acceptLoop trace).closed = true ↔ (specExitCause trace).isSome = true) ∧
    (acceptLoop trace).released = (acceptLoop trace).closed := by
  induction trace with
  | nil => simp [acceptLoop, specExitCause]
  | cons e rest ih =>
    cases e with
    | ctxDone => simp [acceptLoop, specExitCause]
    | acceptErr => simp [acceptLoop, specExitCause]
    | acceptOk evs =>
      rcases he : syncOnConn "" evs with ⟨out, r, sv⟩
      cases r with
      | none =>
        rw [acceptLoop_connHang evs rest out sv he, specExitCause_acceptOk_eq, he]
        simp
      | some b =>
        cases b with
        | true =>
          rw [acceptLoop_connStop evs rest out sv he, specExitCause_acceptOk_eq, he]
          simp
        | false =>
          rw [acceptLoop_connCancel evs rest out sv he, specExitCause_acceptOk_eq, he]
          simpa using ih

/-- Once an exit cause has occurred, later trace events change nothing: in
particular nothing further is ever emitted after the closure. -/
theorem acceptLoop_stops_after_exit (pre : List AcceptEvent) : ∀ suffix : List AcceptEvent,
    (specExitCause pre).isSome = true → acceptLoop (pre ++ suffix) = acceptLoop pre := by
  induction pre with
  | nil => intro suffix h; simp [specExitCause] at h
  | cons e rest ih =>
    intro suffix h
    cases e with
    | ctxDone => rfl
    | acceptErr => rfl
    | acceptOk evs =>
      rw [List.cons_append]
      rcases he : syncOnConn "" evs with ⟨out, r, sv⟩
      cases r with
      | none =>
        rw [specExitCause_acceptOk_eq, he] at h
        simp at h
      | some b =>
        cases b with
        | true =>
          rw [acceptLoop_connStop evs (rest ++ suffix) out sv he,
            acceptLoop_connStop evs rest out sv he]
        | false =>
          rw [specExitCause_acceptOk_eq, he] at h
          simp at h
          rw [acceptLoop_connCancel evs (rest ++ suffix) out sv he,
            acceptLoop_connCancel evs rest out sv he, ih suffix h]

/-- On a trace of recognised non-terminal messages the decode loop emits
exactly the mapped states and never returns. -/
theorem syncOnConn_nonterminal (ss : List String) :
    ∀ st : String, (∀ s ∈ ss, s = "creating" ∨ s = "created" ∨ s = "running") →
    ∃ st', syncOnConn st (ss.map mkMsg) = ⟨ss.filterMap stateOfWire, none, st'⟩ := by
  induction ss with
  | nil =>
    intro st _
    exact ⟨st, rfl⟩
  | cons s ss ih =>
    intro st h
    have hrest : ∀ x ∈ ss, x = "creating" ∨ x = "created" ∨ x = "running" :=
      fun x hx => h x (List.mem_cons_of_mem s hx)
    rcases h s (List.mem_cons_self s ss) with hs | hs | hs <;> subst hs
    · obtain ⟨st', e⟩ := ih "creating" hrest
      refine ⟨st', ?_⟩
      rw [List.map_cons, syncOnConn_creating, e]
      simp [stateOfWire, List.filterMap_cons]
    · obtain ⟨st', e⟩ := ih "created" hrest
      refine ⟨st', ?_⟩
      rw [List.map_cons, syncOnConn_created, e]
      simp [stateOfWire, List.filterMap_cons]
    · obtain ⟨st', e⟩ := ih "running" hrest
      refine ⟨st', ?_⟩
      rw [List.map_cons, syncOnConn_running, e]
      simp [stateOfWire, List.filterMap_cons]

/-- Each recognised non-terminal message contributes exactly one state. -/
theorem filterMap_stateOfWire_length (ss : List String)
    (h : ∀ s ∈ ss, s = "creating" ∨ s = "created" ∨ s = "running") :
    (ss.filterMap stateOfWire).length = ss.length := by
  induction ss with
  | nil => rfl
  | cons s ss ih =>
    have hrest : ∀ x ∈ ss, x = "creating" ∨ x = "created" ∨ x = "running" :=
      fun x hx => h x (List.mem_cons_of_mem s hx)
    rcases h s (List.mem_cons_self s ss) with hs | hs | hs <;> subst hs <;>
      simp [List.filterMap_cons, stateOfWire, ih hrest]

/-- Claim C1: for every sequence of decoded wire messages whose status values
are among creating, created and running (no terminal value), the states sent
on the output channel are exactly, in order, the mapped states, one per
message, and the channel is not closed. -/
theorem C1_nonterminal_stream (ss : List String)
    (h : ∀ s ∈ ss, s = "creating" ∨ s = "created" ∨ s = "running") :
    acceptLoop [AcceptEvent.acceptOk (ss.map mkMsg)] =
      ⟨ss.filterMap stateOfWire, false, false, 1⟩ ∧
    (ss.filterMap stateOfWire).length = ss.length := by
  obtain ⟨st', e⟩ := syncOnConn_nonterminal ss "" h
  exact ⟨acceptLoop_connHang (ss.map mkMsg) [] (ss.filterMap stateOfWire) st' e,
    filterMap_stateOfWire_length ss h⟩

/-- Witness for C1 at the concrete message sequence creating, created,
running. -/
theorem C1_witness :
    acceptLoop [AcceptEvent.acceptOk (List.map mkMsg ["creating", "created", "running"])] =
      ⟨[State.StateCreating, State.StateCreated, State.StateRunning], false, false, 1⟩ :=
  (C1_nonterminal_stream ["creating", "created", "running"] (by decide)).1.trans (by decide)

/-- Claim C2: whenever a stopped message is decoded on a connection, exactly
one StateExited is sent as the final value, syncOnConn returns true, the
channel is closed, and nothing decoded after the stopped message is ever
reflected on the channel (the remaining trace is arbitrary and unexamined). -/
theorem C2_stopped_terminal (pre suffix : List ConnEvent)
    (h : (syncOnConn "" pre).ret = none) :
    syncOnConn "" (pre ++ mkMsg "stopped" :: suffix) =
      ⟨(syncOnConn "" pre).emitted ++ [State.StateExited], some true, "stopped"⟩ ∧
    acceptLoop [AcceptEvent.acceptOk (pre ++ mkMsg "stopped" :: suffix)] =
      ⟨(syncOnConn "" pre).emitted ++ [State.StateExited], true, true, 1⟩ := by
  have e := syncOnConn_append pre "" (mkMsg "stopped" :: suffix) h
  rw [syncOnConn_stopped] at e
  refine ⟨e, acceptLoop_connStop _ []
    ((syncOnConn "" pre).emitted ++ [State.StateExited]) "stopped" e⟩

/-- Witness for C2: a creating message, then stopped, then a further running
message that is never reflected. -/
theorem C2_witness :
    syncOnConn "" ([mkMsg "creating"] ++ mkMsg "stopped" :: [mkMsg "running"]) =
      ⟨(syncOnConn "" [mkMsg "creating"]).emitted ++ [State.StateExited], some true, "stopped"⟩ ∧
    acceptLoop [AcceptEvent.acceptOk ([mkMsg "creating"] ++ mkMsg "stopped" :: [mkMsg "running"])] =
      ⟨(syncOnConn "" [mkMsg "creating"]).emitted ++ [State.StateExited], true, true, 1⟩ :=
  C2_stopped_terminal [mkMsg "creating"] [mkMsg "running"] (by decide)

/-- Counterexample to claim C3: on observing cancellation the decoder returns
false, not true, as shouldStopSession. -/
theorem C3_counterexample :
    (syncOnConn "" [ConnEvent.ctxDone]).ret = some false ∧
    (syncOnConn "" [ConnEvent.ctxDone]).ret ≠ some true := by decide

/-- Claim C3 as amended: when the decoder observes cancellation between
message boundaries it sends no further values and returns shouldStopSession
= false; the session nevertheless ends, because the accept loop performs its
own cancellation check next, emits nothing further, closes the channel and
releases the listener. -/
theorem C3_cancel_reports_false (st : String) (suffix : List ConnEvent)
    (rest : List AcceptEvent) :
    syncOnConn st (ConnEvent.ctxDone :: suffix) = ⟨[], some false, st⟩ ∧
    acceptLoop (AcceptEvent.acceptOk (ConnEvent.ctxDone :: suffix) ::
        AcceptEvent.ctxDone :: rest) = ⟨[], true, true, 1⟩ := by
  refine ⟨rfl, ?_⟩
  rw [acceptLoop_connCancel (ConnEvent.ctxDone :: suffix) (AcceptEvent.ctxDone :: rest) [] "" rfl]
  simp [acceptLoop]

/-- Claim C4, evaluated against the code: once the peer has closed the
connection without a terminal value, dec.More reports false at every poll, so
however many loop iterations pass the decoder never returns, nothing further
is emitted, the channel is never closed and the listener is never released;
the accept loop never proceeds to any further event. -/
theorem C4_eof_never_returns (n : Nat) (st : String) (rest : List AcceptEvent) :
    syncOnConn st (List.replicate n ConnEvent.noData) = ⟨[], none, st⟩ ∧
    acceptLoop (AcceptEvent.acceptOk (List.replicate n ConnEvent.noData) :: rest) =
      ⟨[], false, false, 1⟩ := by
  have e : ∀ (m : Nat) (s : String),
      syncOnConn s (List.replicate m ConnEvent.noData) = ⟨[], none, s⟩ := by
    intro m
    induction m with
    | zero => intro s; rfl
    | succ k ih =>
      intro s
      rw [List.replicate_succ, syncOnConn_noDataE]
      exact ih s
  exact ⟨e n st, acceptLoop_connHang _ rest [] "" (e n "")⟩

/-- Claim C5: the channel is closed exactly when one of the enumerated causes
(cancellation, accept failure, decoder-signalled termination) has occurred;
the listener is released exactly when the channel is closed, the two defers
running together on every exit path; and once a cause has occurred, no later
event changes the outcome, so no state is sent after closure. -/
theorem C5_close_once (trace pre suffix : List AcceptEvent) :
    ((acceptLoop trace).closed = true ↔ (specExitCause trace).isSome = true) ∧
    (acceptLoop trace).released = (acceptLoop trace).closed ∧
    ((specExitCause pre).isSome = true → acceptLoop (pre ++ suffix) = acceptLoop pre) :=
  ⟨(acceptLoop_closed_iff trace).1, (acceptLoop_closed_iff trace).2,
    acceptLoop_stops_after_exit pre suffix⟩

/-- Witness for C5 at a cancellation event followed by a dead accept error. -/
theorem C5_witness :
    ((acceptLoop [AcceptEvent.ctxDone]).closed = true ↔
      (specExitCause [AcceptEvent.ctxDone]).isSome = true) ∧
    (acceptLoop [AcceptEvent.ctxDone]).released = (acceptLoop [AcceptEvent.ctxDone]).closed ∧
    acceptLoop ([AcceptEvent.ctxDone] ++ [AcceptEvent.acceptErr]) =
      acceptLoop [AcceptEvent.ctxDone] := by
  have h := C5_close_once [AcceptEvent.ctxDone] [AcceptEvent.ctxDone] [AcceptEvent.acceptErr]
  exact ⟨h.1, h.2.1, h.2.2 (by decide)⟩

/-- Claim C6: a Decode failure, whether malformed bytes or a syntactically
valid value of the wrong shape, emits no value for that message, makes the
decoder return true and closes the channel, however many valid messages were
decoded and emitted before it. -/
theorem C6_decode_failure (pre suffix : List ConnEvent) (j : Json)
    (h : (syncOnConn "" pre).ret = none)
    (hj : decodeStatus (syncOnConn "" pre).statusVar j = none) :
    acceptLoop [AcceptEvent.acceptOk (pre ++ ConnEvent.badSyntax :: suffix)] =
      ⟨(syncOnConn "" pre).emitted, true, true, 1⟩ ∧
    acceptLoop [AcceptEvent.acceptOk (pre ++ ConnEvent.more j :: suffix)] =
      ⟨(syncOnConn "" pre).emitted, true, true, 1⟩ := by
  constructor
  · have e := syncOnConn_append pre "" (ConnEvent.badSyntax :: suffix) h
    rw [syncOnConn_badSyntaxE] at e
    have e2 : syncOnConn "" (pre ++ ConnEvent.badSyntax :: suffix) =
        ⟨(syncOnConn "" pre).emitted, some true, (syncOnConn "" pre).statusVar⟩ := by
      rw [e]; simp
    exact acceptLoop_connStop _ [] _ _ e2
  · have e := syncOnConn_append pre "" (ConnEvent.more j :: suffix) h
    rw [syncOnConn_more_fail _ j suffix hj] at e
    have e2 : syncOnConn "" (pre ++ ConnEvent.more j :: suffix) =
        ⟨(syncOnConn "" pre).emitted, some true, (syncOnConn "" pre).statusVar⟩ := by
      rw [e]; simp
    exact acceptLoop_connStop _ [] _ _ e2

/-- Witness for C6: a valid creating message followed by malformed bytes, and
by a JSON number in place of an object. -/
theorem C6_witness :
    acceptLoop [AcceptEvent.acceptOk ([mkMsg "creating"] ++ ConnEvent.badSyntax :: [])] =
      ⟨(syncOnConn "" [mkMsg "creating"]).emitted, true, true, 1⟩ ∧
    acceptLoop [AcceptEvent.acceptOk ([mkMsg "creating"] ++ ConnEvent.more (Json.num 5) :: [])] =
      ⟨(syncOnConn "" [mkMsg "creating"]).emitted, true, true, 1⟩ :=
  C6_decode_failure [mkMsg "creating"] [] (Json.num 5) (by decide) (by decide)

/-- Claim C7: a decoded message whose status string is none of the four
recognised values emits nothing and does not make the decoder return; the
connection and session continue exactly as if the loop restarted on the rest
of the trace (with the status variable now holding the unrecognised string). -/
theorem C7_unknown_status (st s : String) (suffix : List ConnEvent)
    (h1 : s ≠ "creating") (h2 : s ≠ "created") (h3 : s ≠ "running") (h4 : s ≠ "stopped") :
    syncOnConn st (mkMsg s :: suffix) = syncOnConn s suffix :=
  syncOnConn_msg_unknown st s suffix h1 h2 h3 h4

/-- Witness for C7: a weird message followed by a valid created message that
is still emitted normally. -/
theorem C7_witness :
    syncOnConn "" (mkMsg "weird" :: [mkMsg "created"]) = syncOnConn "weird" [mkMsg "created"] :=
  C7_unknown_status "" "weird" [mkMsg "created"] (by decide) (by decide) (by decide) (by decide)

/-- Claim C8: when binding the socket fails, ObserveState returns a bind
error synchronously and no stream exists (no background task runs, whatever
events might have followed); when binding succeeds it returns a live stream
and no error. -/
theorem C8_bind_behaviour (events : List AcceptEvent) :
    ObserveState false events = ObserveResult.bindErr ∧
    ObserveState true events = ObserveResult.stream (acceptLoop events) :=
  ⟨rfl, rfl⟩

/-- Claim C9: on every realizable trace (context cancellation being sticky),
at most one connection is ever accepted: after the decoder returns for the
first accepted connection the loop either exits at once (decoder reported
true) or exits at its own cancellation check (decoder reported false). -/
theorem C9_at_most_one_accept (trace : List AcceptEvent) (h : stickyCancel trace = true) :
    (acceptLoop trace).accepts ≤ 1 := by
  cases trace with
  | nil => simp [acceptLoop]
  | cons e rest =>
    cases e with
    | ctxDone => simp [acceptLoop]
    | acceptErr => simp [acceptLoop]
    | acceptOk evs =>
      rcases he : syncOnConn "" evs with ⟨out, r, sv⟩
      cases r with
      | none => rw [acceptLoop_connHang evs rest out sv he]
      | some b =>
        cases b with
        | true => rw [acceptLoop_connStop evs rest out sv he]
        | false =>
          rw [stickyCancel_acceptOk, he] at h
          simp at h
          cases rest with
          | nil => simp at h
          | cons e2 rest2 =>
            cases e2 with
            | ctxDone =>
              rw [acceptLoop_connCancel evs (AcceptEvent.ctxDone :: rest2) out sv he]
              simp [acceptLoop]
            | acceptErr => simp at h
            | acceptOk evs2 => simp at h

/-- Witness for C9: a terminal first connection; a second pending connection
is never accepted. -/
theorem C9_witness :
    (acceptLoop [AcceptEvent.acceptOk [mkMsg "stopped"],
        AcceptEvent.acceptOk [mkMsg "creating"]]).accepts ≤ 1 :=
  C9_at_most_one_accept _ (by decide)

end SCRI
